import Mathlib

/-!
Verification of `src/fmriprep/workflows/fieldmap/base.py` (`init_sdc_wf`):
the susceptibility-distortion-correction (SDC) strategy selection and
workflow-graph assembly logic.

The embedding models:
* fieldmap descriptors as string-keyed association lists (`Dict`), as the
  source treats them as plain dictionaries;
* Python exceptions (`KeyError`, `NameError`, `IndexError`, and the
  validation errors nipype's `Workflow.connect` raises) as an explicit
  `PyError` sum, with fallible steps in `Except PyError`;
* nipype workflows/nodes as `Wf` values holding declared port names, the
  attached node declarations, and the edge list; `Wf.connect` performs the
  two nipype validations that matter here: a workflow may not appear as a
  node of itself, and every named port must be declared by its node;
* the in-place `fmaps.sort(...)` at line 98 by returning, next to the
  result, the caller-visible state of the mutable `fmaps` list
  (`SdcResult.fmapsAfter`).

External sub-workflow factories (`init_pepolar_unwarp_wf`,
`init_syn_sdc_wf`, ...) are not part of src/; they are modelled from the
spec as opaque handles exposing the declared port contract (spec section 4.2),
with port names as used by the connection lists in base.py.
-/

set_option linter.unusedVariables false

/-- A Python dictionary with string keys and string values, as used for the
fieldmap descriptors and for BIDS metadata in `base.py`. -/
abbrev Dict := List (String × String)

/-- The Python exceptions that `init_sdc_wf` can raise, plus the validation
errors raised by nipype's `Workflow.connect`. -/
inductive PyError where
  /-- evaluation of an unbound name (Python `NameError`) -/
  | nameError (n : String)
  /-- a missing dictionary key, or a key function raising during `list.sort`
  (Python `KeyError`; the payload is the offending key) -/
  | keyError (k : String)
  /-- subscripting an empty list (Python `IndexError`) -/
  | indexError
  /-- nipype: `Workflow connect cannot contain itself as node` (an `IOError`) -/
  | connectSelfRef
  /-- nipype: a connection names a port its node does not declare
  (`Some connections were not found`) -/
  | connectPortNotFound (port : String)
deriving Repr, DecidableEq

/-- Python dictionary subscription `d[k]`: the value, or a `KeyError`. -/
def dictGet (d : Dict) (k : String) : Except PyError String :=
  match d.lookup k with
  | some v => .ok v
  | none => .error (.keyError k)

/-- The projection of a node (or sub-workflow) that the containing graph
records: its name and its declared input/output port names. -/
structure NodeDecl where
  name : String
  inPorts : List String
  outPorts : List String
deriving Repr, DecidableEq

/-- An edge `((srcNodeName, srcPort), (dstNodeName, dstPort))`. -/
abbrev Edge := (String × String) × (String × String)

/-- A nipype workflow or node: its name, its connectable port names (for an
`IdentityInterface` node the declared fields serve as both inputs and
outputs; for an opaque sub-workflow the dotted `inputnode.*`/`outputnode.*`
names), the ad-hoc `sdc_method` attribute set by `setattr` in `base.py`,
the declarations of the attached nodes, and the edge list. -/
structure Wf where
  name : String
  inPorts : List String
  outPorts : List String
  sdc_method : Option String
  nodes : List NodeDecl
  edges : List Edge
deriving Repr, DecidableEq

def Wf.asDecl (w : Wf) : NodeDecl :=
  ⟨w.name, w.inPorts, w.outPorts⟩

/-- Port validation performed by nipype's `Workflow.connect`: every source
port must be an output of the source node and every destination port an
input of the destination node. -/
def checkPorts (s d : Wf) : List (String × String) → Option PyError
  | [] => none
  | (sp, dp) :: rest =>
    if ¬ s.outPorts.contains sp then some (.connectPortNotFound sp)
    else if ¬ d.inPorts.contains dp then some (.connectPortNotFound dp)
    else checkPorts s d rest

/-- Validation of a connection list: nipype refuses a connection list in
which the workflow itself appears as a node, and checks the named ports.
(Every `connect` call in `base.py` passes a single-element list, so
interleaving the two checks per element is equivalent to nipype's two
passes.) -/
def checkConns (selfName : String) : List (Wf × Wf × List (String × String)) → Option PyError
  | [] => none
  | (s, d, ps) :: rest =>
    if s.name = selfName ∨ d.name = selfName then some PyError.connectSelfRef
    else
      match checkPorts s d ps with
      | some e => some e
      | none => checkConns selfName rest

/-- Attach a node declaration if it is not already present. -/
def addNode (w : Wf) (n : NodeDecl) : Wf :=
  if w.nodes.contains n then w else { w with nodes := w.nodes ++ [n] }

/-- Record one connection: attach the two nodes and append the edges. -/
def addConn (w : Wf) (s d : Wf) (ps : List (String × String)) : Wf :=
  let w1 := addNode (addNode w s.asDecl) d.asDecl
  { w1 with edges := w1.edges ++ ps.map (fun p => ((s.name, p.1), (d.name, p.2))) }

def addConns (w : Wf) : List (Wf × Wf × List (String × String)) → Wf
  | [] => w
  | (s, d, ps) :: rest => addConns (addConn w s d ps) rest

/-- Model of nipype's `Workflow.connect`: validate, then record nodes and
edges. Further nipype validation (duplicate node names, double-wired
destinations) is never exercised by `base.py`'s connection lists before one
of the modelled checks fires, and is not modelled. -/
def Wf.connect (self : Wf) (conns : List (Wf × Wf × List (String × String))) : Except PyError Wf :=
  match checkConns self.name conns with
  | some e => .error e
  | none => .ok (addConns self conns)

/-- `FMAP_PRIORITY` from `base.py` lines 51-56. -/
def FMAP_PRIORITY : List (String × Nat) :=
  [("epi", 0), ("fieldmap", 1), ("phasediff", 2), ("syn", 3)]

/-- The key function of the sort at line 98:
`lambda fmap: FMAP_PRIORITY[fmap['type']]`. Raises `KeyError` when the
descriptor has no `type` entry or its type is not a key of the table. -/
def sortKey (f : Dict) : Except PyError Nat :=
  match dictGet f "type" with
  | .error e => .error e
  | .ok t =>
    match List.lookup t FMAP_PRIORITY with
    | some p => .ok p
    | none => .error (.keyError t)

/-- The list comprehension at line 71: `[fmap['type'] for fmap in fmaps]`,
evaluated left to right, stopping at the first `KeyError`. -/
def typesOf : List Dict → Except PyError (List String)
  | [] => .ok []
  | f :: fs =>
    match dictGet f "type" with
    | .error e => .error e
    | .ok t =>
      match typesOf fs with
      | .error e => .error e
      | .ok ts => .ok (t :: ts)

/-- CPython's `list.sort(key=...)` computes all keys first (left to right,
first failure wins, the list still unreordered); `decorate` is that pass. -/
def decorate : List Dict → Except PyError (List (Nat × Dict))
  | [] => .ok []
  | f :: fs =>
    match sortKey f with
    | .error e => .error e
    | .ok k =>
      match decorate fs with
      | .error e => .error e
      | .ok ks => .ok ((k, f) :: ks)

/-- Stable insertion by key (the new element goes before the first element
whose key is not smaller, so elements with equal keys keep their order). -/
def insertStable (x : Nat × Dict) : List (Nat × Dict) → List (Nat × Dict)
  | [] => [x]
  | y :: ys => if x.1 ≤ y.1 then x :: y :: ys else y :: insertStable x ys

/-- A stable sort on decorated descriptors; Python's Timsort is stable, and
any stable sort by the same key computes the same list. -/
def sortStable : List (Nat × Dict) → List (Nat × Dict)
  | [] => []
  | x :: xs => insertStable x (sortStable xs)

/-- Line 98: `fmaps.sort(key=lambda fmap: FMAP_PRIORITY[fmap['type']])`
as a function from the old list to the new list (or the `KeyError`). -/
def sortFmaps (fmaps : List Dict) : Except PyError (List Dict) :=
  match decorate fmaps with
  | .error e => .error e
  | .ok keyed => .ok ((sortStable keyed).map (fun p => p.2))

/-- Whether a descriptor carries a `type` entry that is a key of
`FMAP_PRIORITY` (so that the sort key at line 98 evaluates on it). -/
def recognizedType (f : Dict) : Bool :=
  match f.lookup "type" with
  | some t => (List.lookup t FMAP_PRIORITY).isSome
  | none => false

/-- The filter of the comprehension at line 104:
`fmap_['type'] == 'epi'`. -/
def isEpi (f : Dict) : Bool :=
  f.lookup "type" == some "epi"

/-- The comprehension at line 104:
`[fmap_['epi'] for fmap_ in fmaps if fmap_['type'] == 'epi']`. -/
def listCompEpi : List Dict → Except PyError (List String)
  | [] => .ok []
  | f :: fs =>
    match dictGet f "type" with
    | .error e => .error e
    | .ok t =>
      if t = "epi" then
        match dictGet f "epi" with
        | .error e => .error e
        | .ok e =>
          match listCompEpi fs with
          | .error err => .error err
          | .ok es => .ok (e :: es)
      else listCompEpi fs

/-- The comprehension at lines 107-108:
`[(epi, layout.get_metadata(epi)["PhaseEncodingDirection"]) for epi in epi_fmaps]`. -/
def epiMeta (metadata : Option String → Dict) : List String → Except PyError (List (String × String))
  | [] => .ok []
  | e :: es =>
    match dictGet (metadata (some e)) "PhaseEncodingDirection" with
    | .error err => .error err
    | .ok pe =>
      match epiMeta metadata es with
      | .error err => .error err
      | .ok ps => .ok ((e, pe) :: ps)

/-- The `inputnode` fields, lines 76-78. -/
def inputnodeFields : List String :=
  ["name_source", "bold_ref", "bold_ref_brain", "bold_mask",
   "fmap", "fmap_ref", "fmap_mask", "t1_brain", "t1_seg",
   "t1_2_mni_reverse_transform", "itk_t1_to_bold"]

/-- The `outputnode` fields, lines 82-83. -/
def outputnodeFields : List String :=
  ["bold_ref", "bold_mask", "bold_ref_brain",
   "out_warp", "out_report", "syn_sdc_report"]

/-- A `pe.Node(niu.IdentityInterface(fields=...))`: the declared fields are
both its input and its output ports. -/
def identityNode (name : String) (fields : List String) : Wf :=
  ⟨name, fields, fields, none, [], []⟩

def inputnode : Wf := identityNode "inputnode" inputnodeFields

def outputnode : Wf := identityNode "outputnode" outputnodeFields

/-- Modelled from the spec: `init_pepolar_unwarp_wf` lives outside `src/`
(only its call site is in `base.py`). Per spec section 4.2 the pepolar factory
returns an opaque sub-pipeline handle consuming the BOLD reference and
producing the corrected reference, warp field and mask; port names follow
the connection lists in `base.py`. The handle is opaque: its arguments are
not inspected by the assembler. -/
def init_pepolar_unwarp_wf (bold_meta : Dict) (epi_fmaps : List (String × String))
    (omp_nthreads : Nat) (name : String) : Wf :=
  ⟨name,
   ["inputnode.bold_ref"],
   ["outputnode.out_reference", "outputnode.out_reference_brain",
    "outputnode.out_warp", "outputnode.out_mask"],
   none, [], []⟩

/-- Modelled from the spec: `init_syn_sdc_wf` lives outside `src/`. Per spec
section 4.2 the SyN factory consumes the T1 brain, segmentation, inverse
template transform and BOLD reference, and produces the corrected
reference, warp field and warp report; port names follow the connection
lists in `base.py` (lines 163-167, 176-177, 181-184). -/
def init_syn_sdc_wf (template : Option String) (bold_pe : Option String)
    (omp_nthreads : Nat) : Wf :=
  ⟨"syn_sdc_wf",
   ["inputnode.t1_brain", "inputnode.t1_seg",
    "inputnode.t1_2_mni_reverse_transform", "inputnode.bold_ref"],
   ["outputnode.out_reference", "outputnode.out_reference_brain",
    "outputnode.out_mask", "outputnode.out_warp", "outputnode.out_warp_report"],
   none, [], []⟩

/-- What the call `init_sdc_wf(layout, fmaps, ...)` leaves behind: the
returned workflow (or the Python exception), and the caller-visible state
of the mutable `fmaps` list (the in-place sort at line 98 is the only
mutation; the rebinding `fmaps = None` at line 72 is local). -/
structure SdcResult where
  result : Except PyError Wf
  fmapsAfter : List Dict
deriving Repr

/-- Lines 99-199 of `init_sdc_wf`, entered after the bypass check with the
(now sorted) non-empty descriptor list. `wf0` is the outer workflow.
The free names `reportlets_dir`, `fmap_bspline`, `fmap_demean` and `debug`
used by the fieldmap/phasediff branch (lines 121-146) and by the report
stage (line 189) are neither parameters of `init_sdc_wf` nor module
globals, so evaluating them raises `NameError`; likewise `sdc_unwarp_wf` /
`syn_sdc_wf` at line 180/181 are unbound on the branches that never
assigned them. -/
def sdcAfterSort (metadata : Option String → Dict) (template : Option String)
    (bold_meta : Dict) (omp_nthreads : Nat) (wf0 : Wf) (fmaps : List Dict) :
    Except PyError Wf :=
  -- line 99: fmap = fmaps[0]
  match fmaps with
  | [] => .error .indexError
  | fmap :: _ =>
    match dictGet fmap "type" with
    | .error e => .error e
    | .ok ftype =>
      -- PEPOLAR path, lines 102-110
      let step1 : Except PyError (Wf × Option Wf) :=
        if ftype = "epi" then
          let wf1 := { wf0 with
            sdc_method := some "PEB/PEPOLAR (phase-encoding based / PE-POLARity)" }
          match listCompEpi fmaps with
          | .error e => .error e
          | .ok epi_fmaps =>
            match epiMeta metadata epi_fmaps with
            | .error e => .error e
            | .ok epi_pairs =>
              .ok (wf1, some (init_pepolar_unwarp_wf bold_meta epi_pairs
                omp_nthreads "pepolar_unwarp_wf"))
        else .ok (wf0, none)
      match step1 with
      | .error e => .error e
      | .ok (wf1, suw1) =>
        -- FIELDMAP path, lines 113-153: after the setattr at line 114, both
        -- sub-branches evaluate the unbound name reportlets_dir (lines
        -- 122 and 132) as the first keyword argument of the estimator
        -- factory call, raising NameError before anything else happens
        if ftype = "fieldmap" ∨ ftype = "phasediff" then
          .error (.nameError "reportlets_dir")
        else
          -- FIELDMAP-less path, line 156: fmaps[-1]['type'] == 'syn'
          match fmaps.getLast? with
          | none => .error .indexError
          | some lastf =>
            match dictGet lastf "type" with
            | .error e => .error e
            | .ok ltype =>
              let step2 : Except PyError (Wf × Option Wf × Option Wf) :=
                if ltype = "syn" then
                  -- lines 157-160
                  let syn := init_syn_sdc_wf template
                    (bold_meta.lookup "PhaseEncodingDirection") omp_nthreads
                  -- lines 162-168
                  match wf1.connect [(inputnode, syn,
                      [("t1_brain", "inputnode.t1_brain"),
                       ("t1_seg", "inputnode.t1_seg"),
                       ("t1_2_mni_reverse_transform", "inputnode.t1_2_mni_reverse_transform"),
                       ("bold_ref_brain", "inputnode.bold_ref")])] with
                  | .error e => .error e
                  | .ok wf2 =>
                    -- lines 170-178
                    if fmaps.length = 1 then
                      .ok ({ wf2 with sdc_method := some "FLB (fieldmap-less SyN)" },
                        some syn, some syn)
                    else
                      match wf2.connect [(syn, outputnode,
                          [("outputnode.out_warp_report", "syn_sdc_report")])] with
                      | .error e => .error e
                      | .ok wf3 => .ok (wf3, suw1, some syn)
                else .ok (wf1, suw1, none)
              match step2 with
              | .error e => .error e
              | .ok (wf4, suwOpt, synOpt) =>
                -- lines 180-185: sdc_unwarp_wf.connect([(syn_sdc_wf, outputnode, ...)]);
                -- the two names are unbound on branches that never assigned them,
                -- and the connect is issued on the sub-workflow object (not on
                -- `workflow`), so a successful call would not modify the outer graph
                match suwOpt with
                | none => .error (.nameError "sdc_unwarp_wf")
                | some suw =>
                  match synOpt with
                  | none => .error (.nameError "syn_sdc_wf")
                  | some syn =>
                    match suw.connect [(syn, outputnode,
                        [("outputnode.out_warp", "inputnode.out_warp"),
                         ("outputnode.out_reference_brain", "inputnode.ref_bold_brain"),
                         ("outputnode.out_mask", "inputnode.ref_bold_mask")])] with
                    | .error e => .error e
                    | .ok _ =>
                      -- lines 187-199: the report factory call at lines 188-190
                      -- evaluates the unbound name reportlets_dir (line 189)
                      .error (.nameError "reportlets_dir")

/-- `init_sdc_wf(layout, fmaps, template=None, bold_file=None, omp_nthreads=1)`
from `base.py` lines 59-199. `metadata` stands for the external
`layout.get_metadata` collaborator. -/
def init_sdc_wf (metadata : Option String → Dict) (fmaps : List Dict)
    (template : Option String) (bold_file : Option String) (omp_nthreads : Nat) :
    SdcResult :=
  -- line 71: set([fmap['type'] for fmap in fmaps]).intersection(FMAP_PRIORITY);
  -- the intersection is non-empty exactly when some listed type is a table key
  match typesOf fmaps with
  | .error e => ⟨.error e, fmaps⟩
  | .ok types =>
    if types.any (fun t => (List.lookup t FMAP_PRIORITY).isSome) then
      -- line 74: some recognized type present, so `fmaps` stays truthy
      let workflow : Wf := ⟨"sdc_wf", [], [], none, [], []⟩
      -- line 95
      let bold_meta := metadata bold_file
      -- line 98: in-place stable sort by priority; CPython computes every
      -- key before reordering, so a KeyError leaves the caller's list as it was
      match sortFmaps fmaps with
      | .error e => ⟨.error e, fmaps⟩
      | .ok sorted =>
        ⟨sdcAfterSort metadata template bold_meta omp_nthreads workflow sorted, sorted⟩
    else
      -- line 72: fmaps rebound to None (locally); line 74: bypass name;
      -- lines 86-93: forward inputs to outputs and return
      let workflow : Wf := ⟨"sdc_bypass_wf", [], [], none, [], []⟩
      ⟨workflow.connect [(inputnode, outputnode,
          [("bold_ref", "bold_ref"),
           ("bold_mask", "bold_mask"),
           ("bold_ref_brain", "bold_ref_brain")])], fmaps⟩

/-! ### Properties of the priority sort (lines 97-99) -/

theorem insertStable_perm (x : Nat × Dict) (l : List (Nat × Dict)) :
    List.Perm (insertStable x l) (x :: l) := by
  induction l with
  | nil => simp [insertStable]
  | cons y ys ih =>
    by_cases h : x.1 ≤ y.1
    · simp [insertStable, h]
    · simp only [insertStable, if_neg h]
      exact (ih.cons y).trans (List.Perm.swap x y ys)

theorem sortStable_perm (l : List (Nat × Dict)) : List.Perm (sortStable l) l := by
  induction l with
  | nil => simp [sortStable]
  | cons x xs ih => exact (insertStable_perm x (sortStable xs)).trans (ih.cons x)

theorem insertStable_pairwise (x : Nat × Dict) (l : List (Nat × Dict))
    (h : l.Pairwise (fun a b => a.1 ≤ b.1)) :
    (insertStable x l).Pairwise (fun a b => a.1 ≤ b.1) := by
  induction l with
  | nil => simp [insertStable]
  | cons y ys ih =>
    obtain ⟨hy, hys⟩ := List.pairwise_cons.mp h
    by_cases hxy : x.1 ≤ y.1
    · simp only [insertStable, if_pos hxy]
      refine List.pairwise_cons.mpr ⟨?_, h⟩
      intro z hz
      rcases List.mem_cons.mp hz with rfl | hz2
      · exact hxy
      · exact le_trans hxy (hy z hz2)
    · simp only [insertStable, if_neg hxy]
      refine List.pairwise_cons.mpr ⟨?_, ih hys⟩
      intro z hz
      have hz2 : z = x ∨ z ∈ ys := by
        simpa using (insertStable_perm x ys).mem_iff.mp hz
      rcases hz2 with rfl | hz2
      · omega
      · exact hy z hz2

theorem sortStable_pairwise (l : List (Nat × Dict)) :
    (sortStable l).Pairwise (fun a b => a.1 ≤ b.1) := by
  induction l with
  | nil => simp [sortStable]
  | cons x xs ih => exact insertStable_pairwise x (sortStable xs) ih

theorem decorate_map_snd : ∀ {fmaps : List Dict} {keyed : List (Nat × Dict)},
    decorate fmaps = .ok keyed → keyed.map (fun p => p.2) = fmaps := by
  intro fmaps
  induction fmaps with
  | nil =>
    intro keyed h
    simp [decorate] at h
    simp [← h]
  | cons f fs ih =>
    intro keyed h
    unfold decorate at h
    cases hk : sortKey f with
    | error e => rw [hk] at h; simp at h
    | ok k =>
      rw [hk] at h
      cases hks : decorate fs with
      | error e => rw [hks] at h; simp at h
      | ok ks =>
        rw [hks] at h
        simp only [Except.ok.injEq] at h
        subst h
        simp [ih hks]

theorem decorate_keys : ∀ {fmaps : List Dict} {keyed : List (Nat × Dict)},
    decorate fmaps = .ok keyed → ∀ p ∈ keyed, sortKey p.2 = .ok p.1 := by
  intro fmaps
  induction fmaps with
  | nil =>
    intro keyed h
    simp [decorate] at h
    subst h
    simp
  | cons f fs ih =>
    intro keyed h
    unfold decorate at h
    cases hk : sortKey f with
    | error e => rw [hk] at h; simp at h
    | ok k =>
      rw [hk] at h
      cases hks : decorate fs with
      | error e => rw [hks] at h; simp at h
      | ok ks =>
        rw [hks] at h
        simp only [Except.ok.injEq] at h
        subst h
        intro p hp
        rcases List.mem_cons.mp hp with rfl | hp2
        · exact hk
        · exact ih hks p hp2

theorem recognizedType_eq_true {f : Dict} :
    recognizedType f = true ↔
      ∃ t, f.lookup "type" = some t ∧ (List.lookup t FMAP_PRIORITY).isSome = true := by
  constructor
  · intro h
    unfold recognizedType at h
    split at h
    · rename_i t hl
      exact ⟨t, hl, h⟩
    · exact absurd h (by simp)
  · intro hex
    obtain ⟨t, hl, hp⟩ := hex
    unfold recognizedType
    rw [hl]
    exact hp

theorem recognized_sortKey {f : Dict} (h : recognizedType f = true) :
    ∃ k, sortKey f = .ok k := by
  obtain ⟨t, hl, hps⟩ := recognizedType_eq_true.mp h
  obtain ⟨p, hp⟩ := Option.isSome_iff_exists.mp hps
  exact ⟨p, by simp [sortKey, dictGet, hl, hp]⟩

theorem decorate_ok {fmaps : List Dict} (h : ∀ f ∈ fmaps, recognizedType f = true) :
    ∃ keyed, decorate fmaps = .ok keyed := by
  induction fmaps with
  | nil => exact ⟨[], rfl⟩
  | cons f fs ih =>
    obtain ⟨k, hk⟩ := recognized_sortKey (h f (by simp))
    obtain ⟨ks, hks⟩ := ih (fun g hg => h g (by simp [hg]))
    exact ⟨(k, f) :: ks, by simp [decorate, hk, hks]⟩

theorem lookup_priority_zero {t : String} (h : List.lookup t FMAP_PRIORITY = some 0) :
    t = "epi" := by
  simp only [FMAP_PRIORITY, List.lookup] at h
  split at h
  · rename_i hbeq
    exact eq_of_beq hbeq
  · split at h
    · simp at h
    · split at h
      · simp at h
      · split at h
        · simp at h
        · simp at h

theorem sortKey_zero_iff {f : Dict} :
    sortKey f = .ok 0 ↔ f.lookup "type" = some "epi" := by
  constructor
  · intro h
    unfold sortKey dictGet at h
    split at h
    · simp at h
    · rename_i t heq
      split at h
      · rename_i p hp
        simp only [Except.ok.injEq] at h
        subst h
        split at heq
        · rename_i v hv
          simp only [Except.ok.injEq] at heq
          subst heq
          rw [hv, lookup_priority_zero hp]
        · simp at heq
      · simp at h
  · intro h
    simp [sortKey, dictGet, h, FMAP_PRIORITY, List.lookup]

theorem filter_map_snd (p : Dict → Bool) : ∀ l : List (Nat × Dict),
    (l.map (fun q => q.2)).filter p = (l.filter (fun q => p q.2)).map (fun q => q.2) := by
  intro l
  induction l with
  | nil => rfl
  | cons x xs ih => by_cases h : p x.2 <;> simp [h, ih]

theorem sortFmaps_ok_perm {fmaps sorted : List Dict}
    (h : sortFmaps fmaps = .ok sorted) : List.Perm sorted fmaps := by
  unfold sortFmaps at h
  cases hdec : decorate fmaps with
  | error e => rw [hdec] at h; simp at h
  | ok keyed =>
    rw [hdec] at h
    simp only [Except.ok.injEq] at h
    subst h
    have := (sortStable_perm keyed).map (fun q => q.2)
    rw [decorate_map_snd hdec] at this
    exact this

/-! ### Properties of the line-71 type census -/

theorem typesOf_ok {fmaps : List Dict}
    (h : ∀ f ∈ fmaps, (f.lookup "type").isSome = true) :
    ∃ ts, typesOf fmaps = .ok ts ∧ ∀ f ∈ fmaps, ∃ t ∈ ts, f.lookup "type" = some t := by
  induction fmaps with
  | nil => exact ⟨[], rfl, by simp⟩
  | cons f fs ih =>
    have hf := h f (by simp)
    obtain ⟨t, ht⟩ := Option.isSome_iff_exists.mp hf
    obtain ⟨ts, hts, hcorr⟩ := ih (fun g hg => h g (by simp [hg]))
    refine ⟨t :: ts, ?_, ?_⟩
    · simp [typesOf, dictGet, ht, hts]
    · intro g hg
      rcases List.mem_cons.mp hg with rfl | hg2
      · exact ⟨t, by simp, ht⟩
      · obtain ⟨u, hu, hgu⟩ := hcorr g hg2
        exact ⟨u, by simp [hu], hgu⟩

theorem decorate_err : ∀ {fmaps : List Dict},
    (∀ f ∈ fmaps, (f.lookup "type").isSome = true) →
    (∃ f ∈ fmaps, recognizedType f = false) →
    ∃ t, List.lookup t FMAP_PRIORITY = none ∧ decorate fmaps = .error (.keyError t) := by
  intro fmaps
  induction fmaps with
  | nil => intro _ hbad; simp at hbad
  | cons f fs ih =>
    intro htype hbad
    by_cases hf : recognizedType f = true
    · obtain ⟨k, hk⟩ := recognized_sortKey hf
      have hbad2 : ∃ g ∈ fs, recognizedType g = false := by
        obtain ⟨g, hg, hgf⟩ := hbad
        rcases List.mem_cons.mp hg with rfl | hg2
        · rw [hf] at hgf; exact absurd hgf (by simp)
        · exact ⟨g, hg2, hgf⟩
      obtain ⟨t, htn, hderr⟩ := ih (fun g hg => htype g (by simp [hg])) hbad2
      exact ⟨t, htn, by simp [decorate, hk, hderr]⟩
    · have hft := htype f (by simp)
      obtain ⟨t, ht⟩ := Option.isSome_iff_exists.mp hft
      have htn : List.lookup t FMAP_PRIORITY = none := by
        cases hp : List.lookup t FMAP_PRIORITY with
        | none => rfl
        | some p => exact absurd (recognizedType_eq_true.mpr ⟨t, ht, by simp [hp]⟩) hf
      have hk : sortKey f = .error (.keyError t) := by
        simp [sortKey, dictGet, ht, htn]
      exact ⟨t, htn, by simp [decorate, hk]⟩

/-! ### Concrete inputs used by the claim theorems -/

/-- A metadata collaborator that answers every query with a phase-encoding
direction (so the external `layout.get_metadata` calls never fail). -/
def exMd : Option String → Dict := fun _ => [("PhaseEncodingDirection", "j")]

def d_epi : Dict := [("type", "epi"), ("epi", "epi1.nii")]

def d_syn : Dict := [("type", "syn")]

def d_fm : Dict := [("type", "fieldmap"), ("fieldmap", "fm.nii"), ("magnitude", "m.nii")]

def d_phd : Dict := [("type", "phasediff"), ("phasediff", "ph.nii"), ("magnitude1", "m1.nii")]

def d_bogus : Dict := [("type", "bogus")]

/-- The graph the bypass branch (lines 86-93) returns: the two identity
nodes and the three 1:1 forwarding edges. -/
def sdc_bypass_graph : Wf :=
  ⟨"sdc_bypass_wf", [], [], none,
   [⟨"inputnode", inputnodeFields, inputnodeFields⟩,
    ⟨"outputnode", outputnodeFields, outputnodeFields⟩],
   [(("inputnode", "bold_ref"), ("outputnode", "bold_ref")),
    (("inputnode", "bold_mask"), ("outputnode", "bold_mask")),
    (("inputnode", "bold_ref_brain"), ("outputnode", "bold_ref_brain"))]⟩

/-! ### Claim theorems -/

/-- C1 (code_bug evidence): the epi branch does not return a graph. With a
single epi descriptor the function reaches line 180, where the unbound name
`syn_sdc_wf` is evaluated, raising `NameError` instead of returning the
assembled workflow; so not every non-bypass branch returns a composed
graph. -/
theorem epi_branch_raises :
    (init_sdc_wf exMd [d_epi] none none 1).result
      = Except.error (PyError.nameError "syn_sdc_wf") := rfl

/-- C2: whenever every descriptor's type is recognized and at least one
descriptor is of type epi, the priority sort of line 98 puts an epi
descriptor first (so `fmap = fmaps[0]` at line 99 selects the pepolar
strategy regardless of how many other types are present), and the epi
group (filter at line 104) of the sorted list contains exactly the epi
descriptors of the input set, not just one. -/
theorem epi_priority_wins (fmaps : List Dict)
    (hall : ∀ f ∈ fmaps, recognizedType f = true)
    (hepi : ∃ f ∈ fmaps, isEpi f = true) :
    ∃ w rest, sortFmaps fmaps = Except.ok (w :: rest) ∧ isEpi w = true ∧
      List.Perm ((w :: rest).filter isEpi) (fmaps.filter isEpi) := by
  obtain ⟨keyed, hdec⟩ := decorate_ok hall
  have hsnd := decorate_map_snd hdec
  have hkeys := decorate_keys hdec
  obtain ⟨f0, hf0m, hf0⟩ := hepi
  have hf0t : f0.lookup "type" = some "epi" := by simpa [isEpi] using hf0
  have hf0k : ∃ p ∈ keyed, p.2 = f0 := by
    rw [← hsnd] at hf0m
    simpa using List.mem_map.mp hf0m
  obtain ⟨p0, hp0m, hp0⟩ := hf0k
  have hp0key : sortKey f0 = .ok p0.1 := by rw [← hp0]; exact hkeys p0 hp0m
  have hf0key : sortKey f0 = .ok 0 := sortKey_zero_iff.mpr hf0t
  have hp01 : p0.1 = 0 := by
    rw [hp0key] at hf0key
    exact Except.ok.inj hf0key
  have hperm := sortStable_perm keyed
  have hp0s : p0 ∈ sortStable keyed := hperm.mem_iff.mpr hp0m
  cases hss : sortStable keyed with
  | nil => rw [hss] at hp0s; simp at hp0s
  | cons q qs =>
    rw [hss] at hp0s hperm
    have hpw := sortStable_pairwise keyed
    rw [hss] at hpw
    have hq1 : q.1 = 0 := by
      rcases List.mem_cons.mp hp0s with rfl | hmem
      · exact hp01
      · have := (List.pairwise_cons.mp hpw).1 p0 hmem
        omega
    have hqk : sortKey q.2 = .ok q.1 := hkeys q (hperm.subset (by simp))
    have hqt : q.2.lookup "type" = some "epi" := by
      apply sortKey_zero_iff.mp
      rw [hqk, hq1]
    refine ⟨q.2, qs.map (fun p => p.2), ?_, ?_, ?_⟩
    · simp [sortFmaps, hdec, hss]
    · simp [isEpi, hqt]
    · have hcons : (q.2 :: qs.map (fun p => p.2)) = ((q :: qs).map (fun p => p.2)) := by simp
      rw [hcons, ← hss]
      rw [filter_map_snd isEpi (sortStable keyed)]
      have h2 : fmaps.filter isEpi
          = (keyed.filter (fun p => isEpi p.2)).map (fun p => p.2) := by
        rw [← hsnd, filter_map_snd]
      rw [h2]
      exact ((sortStable_perm keyed).filter _).map _

def exC2 : List Dict := [d_phd, d_epi, d_syn]

/-- C2 witness: a set with phasediff, epi and syn descriptors. -/
theorem epi_priority_wins_witness :
    (∀ f ∈ exC2, recognizedType f = true) ∧ (∃ f ∈ exC2, isEpi f = true) ∧
      ∃ w rest, sortFmaps exC2 = Except.ok (w :: rest) ∧ isEpi w = true ∧
        List.Perm ((w :: rest).filter isEpi) (exC2.filter isEpi) :=
  ⟨by decide, by decide, epi_priority_wins exC2 (by decide) (by decide)⟩

/-- C3 counterexample: a set mixing one recognized (`fieldmap`) and one
unrecognized (`bogus`) type. Contrary to the claim, the unrecognized
descriptor is not filtered out (line 71 only nulls the whole list when NO
type is recognized), and ranking does not proceed over the recognized
descriptors and no dedicated `UnsupportedFieldmapType` error exists: the
sort key at line 98 raises a plain `KeyError` on the unrecognized tag. -/
theorem mixed_set_keyerror :
    (init_sdc_wf exMd [d_fm, d_bogus] none none 1).result
      = Except.error (PyError.keyError "bogus") := rfl

/-- C3 amended: descriptors with unrecognized types are not individually
filtered; whenever a descriptor set contains at least one recognized and
at least one unrecognized type (each descriptor carrying a `type` entry),
line 71 keeps the whole list and the ranking sort at line 98 raises
`KeyError` on an unrecognized type tag, leaving the caller's list
unreordered. -/
theorem mixed_types_keyerror (metadata : Option String → Dict)
    (template bold_file : Option String) (omp_nthreads : Nat) (fmaps : List Dict)
    (htype : ∀ f ∈ fmaps, (f.lookup "type").isSome = true)
    (hrec : ∃ f ∈ fmaps, recognizedType f = true)
    (hbad : ∃ f ∈ fmaps, recognizedType f = false) :
    ∃ t, List.lookup t FMAP_PRIORITY = none ∧
      (init_sdc_wf metadata fmaps template bold_file omp_nthreads).result
        = Except.error (PyError.keyError t) ∧
      (init_sdc_wf metadata fmaps template bold_file omp_nthreads).fmapsAfter = fmaps := by
  obtain ⟨ts, hts, hcorr⟩ := typesOf_ok htype
  obtain ⟨f0, hf0m, hf0⟩ := hrec
  obtain ⟨t0, ht0m, ht0⟩ := hcorr f0 hf0m
  have ht0r : (List.lookup t0 FMAP_PRIORITY).isSome = true := by
    obtain ⟨u, hu, hur⟩ := recognizedType_eq_true.mp hf0
    rw [ht0] at hu
    obtain rfl := Option.some.inj hu
    exact hur
  have hany : ts.any (fun t => (List.lookup t FMAP_PRIORITY).isSome) = true := by
    simp only [List.any_eq_true]
    exact ⟨t0, ht0m, ht0r⟩
  obtain ⟨t, htnone, hdecerr⟩ := decorate_err htype hbad
  have hsferr : sortFmaps fmaps = .error (.keyError t) := by
    simp [sortFmaps, hdecerr]
  refine ⟨t, htnone, ?_, ?_⟩ <;>
    simp [init_sdc_wf, hts, hany, hsferr]

def exC3 : List Dict := [d_phd, d_bogus]

/-- C3 amended witness: a phasediff descriptor next to an unrecognized one. -/
theorem mixed_types_keyerror_witness :
    (∀ f ∈ exC3, (f.lookup "type").isSome = true) ∧
      (∃ f ∈ exC3, recognizedType f = true) ∧ (∃ f ∈ exC3, recognizedType f = false) ∧
      ∃ t, List.lookup t FMAP_PRIORITY = none ∧
        (init_sdc_wf exMd exC3 none none 1).result = Except.error (PyError.keyError t) ∧
        (init_sdc_wf exMd exC3 none none 1).fmapsAfter = exC3 :=
  ⟨by decide, by decide, by decide,
    mixed_types_keyerror exMd none none 1 exC3 (by decide) (by decide) (by decide)⟩

/-- C4: for an empty descriptor set (no fieldmaps and no caller-appended
syn descriptor, i.e. neither use_syn nor force_syn), the function takes the
bypass branch and returns exactly the graph whose only nodes are the two
identity interfaces and whose only edges forward `bold_ref`, `bold_mask`
and `bold_ref_brain` 1:1 from inputs to outputs, with no sub-pipeline
attached and the caller's (empty) list untouched. -/
theorem bypass_graph_identity (metadata : Option String → Dict)
    (template bold_file : Option String) (omp_nthreads : Nat) :
    init_sdc_wf metadata [] template bold_file omp_nthreads
      = ⟨Except.ok sdc_bypass_graph, []⟩ := rfl

/-- C5 (code_bug evidence): with an epi winner plus a supplementary syn
descriptor, lines 180-185 wire the SyN workflow (not the primary pepolar
correction) toward the output node, on the pepolar sub-workflow object,
through destination ports (`inputnode.out_warp`, ...) that the output node
does not declare; nipype rejects the connection, so the claimed routing
(primary outputs to outer correction outputs) never materializes. -/
theorem supplementary_syn_connect_fails :
    (init_sdc_wf exMd [d_epi, d_syn] none none 1).result
      = Except.error (PyError.connectPortNotFound "inputnode.out_warp") := rfl

/-- C6 (code_bug evidence): the fieldmap branch does not complete. The
estimator factory call at lines 121-124 evaluates the unbound name
`reportlets_dir` (not a parameter of `init_sdc_wf` nor a module global),
raising `NameError` before the estimator or the unwarp sub-pipeline can be
attached. -/
theorem fieldmap_branch_raises :
    (init_sdc_wf exMd [d_fm] none none 1).result
      = Except.error (PyError.nameError "reportlets_dir") := rfl

/-- C7 (code_bug evidence): in the syn-only case (`fmaps == [{type: syn}]`,
how a caller encodes force_syn/use_syn with no real fieldmap),
`sdc_unwarp_wf` is the SyN workflow itself, so the connect at lines 180-185
asks the SyN sub-workflow to contain itself as a node; nipype raises
`IOError` and the SyN outputs are never wired to the outer correction
outputs. -/
theorem syn_only_connect_self_fails :
    (init_sdc_wf exMd [d_syn] none none 1).result
      = Except.error PyError.connectSelfRef := rfl

/-- C8 (code_bug evidence): the outer port declarations (lines 74-84) are
branch-independent, but a non-bypass branch (here phasediff + supplementary
syn) raises before returning, so no graph with the fixed outer port sets is
returned on that branch; only the bypass branch returns a graph. -/
theorem phasediff_syn_branch_no_graph :
    (init_sdc_wf exMd [d_phd, d_syn] none none 1).result
      = Except.error (PyError.nameError "reportlets_dir") := rfl

/-- C9 counterexample: the caller's descriptor list is mutated. After the
call with `[phasediff, epi]`, the caller's list holds the descriptors
sorted by priority (`[epi, phasediff]`), not in the original order. -/
theorem caller_list_reordered :
    (init_sdc_wf exMd [d_phd, d_epi] none none 1).fmapsAfter ≠ [d_phd, d_epi] := by
  decide

/-- C9 amended: the call preserves the caller's descriptor collection as a
multiset but not its order: the in-place sort at line 98 is the only
mutation, so after the call the caller's list is a permutation (by-priority
reordering) of the original, in every case. -/
theorem fmaps_after_perm (metadata : Option String → Dict) (fmaps : List Dict)
    (template bold_file : Option String) (omp_nthreads : Nat) :
    List.Perm (init_sdc_wf metadata fmaps template bold_file omp_nthreads).fmapsAfter fmaps := by
  unfold init_sdc_wf
  cases hts : typesOf fmaps with
  | error e => exact List.Perm.refl fmaps
  | ok ts =>
    by_cases hany : ts.any (fun t => (List.lookup t FMAP_PRIORITY).isSome) = true
    · simp only [hany, if_true]
      cases hsf : sortFmaps fmaps with
      | error e => exact List.Perm.refl fmaps
      | ok sorted => exact sortFmaps_ok_perm hsf
    · simp only [Bool.not_eq_true] at hany
      simp only [hany]
      exact List.Perm.refl fmaps

/-- C10: in the bypass case the returned graph still declares the outer
output ports `out_warp`, `out_report` and `syn_sdc_report` on the attached
output node, but no edge targets any of them: every edge ends on one of
the three forwarded ports. -/
theorem bypass_report_ports_unconnected (metadata : Option String → Dict)
    (template bold_file : Option String) (omp_nthreads : Nat) :
    ∃ g, (init_sdc_wf metadata [] template bold_file omp_nthreads).result = Except.ok g ∧
      (⟨"outputnode", outputnodeFields, outputnodeFields⟩ : NodeDecl) ∈ g.nodes ∧
      "out_warp" ∈ outputnodeFields ∧ "out_report" ∈ outputnodeFields ∧
      "syn_sdc_report" ∈ outputnodeFields ∧
      ∀ e ∈ g.edges,
        (e.2.1 = "outputnode" ∧
          (e.2.2 = "bold_ref" ∨ e.2.2 = "bold_mask" ∨ e.2.2 = "bold_ref_brain")) ∧
        e.2.2 ≠ "out_warp" ∧ e.2.2 ≠ "out_report" ∧ e.2.2 ≠ "syn_sdc_report" :=
  ⟨sdc_bypass_graph, rfl, by decide, by decide, by decide, by decide, by decide⟩
